import Mathlib

/-!
Shallow embedding of `stdlib/stddraw.py`, a pedagogical 2D drawing facade
over pygame.  The module keeps a handful of globals: the logical scale
bounds `_xmin/_xmax/_ymin/_ymax`, the canvas size, the pen radius, a
window-created flag, a queue of typed keys and the last mouse click
position.  Python floats are modelled as exact rationals `ℚ`; functions
that `raise` are modelled in `Except String`.  Drawing functions emit a
`DrawCmd` describing the single toolkit call they delegate to, paired with
the state after the implicit `_make_sure_window_created`.
-/

namespace StdDraw

/-- The border constant `_BORDER` of stddraw (the source sets it to `0.0`). -/
def BORDER : ℚ := 0

/-- Default minimum x of the logical scale (`_DEFAULT_XMIN = 0.0`). -/
def DEFAULT_XMIN : ℚ := 0

/-- Default maximum x of the logical scale (`_DEFAULT_XMAX = 1.0`). -/
def DEFAULT_XMAX : ℚ := 1

/-- Default minimum y of the logical scale (`_DEFAULT_YMIN = 0.0`). -/
def DEFAULT_YMIN : ℚ := 0

/-- Default maximum y of the logical scale (`_DEFAULT_YMAX = 1.0`). -/
def DEFAULT_YMAX : ℚ := 1

/-- Default canvas size in pixels (`_DEFAULT_CANVAS_SIZE = 512`). -/
def DEFAULT_CANVAS_SIZE : ℚ := 512

/-- Default pen radius (`_DEFAULT_PEN_RADIUS = .005`). -/
def DEFAULT_PEN_RADIUS : ℚ := 5 / 1000

/-- The module-level mutable globals of stddraw that the verified claims
concern.  Pen color and font settings are plain assignments touching no
other global, so they are omitted.  In Python `_xmin .. _ymax` and
`_pen_radius` start as `None`, but module initialization overwrites them
(via `set_xscale(); set_yscale(); set_pen_radius()`) before any client
code runs, so they are modelled as plain rationals. -/
structure DrawState where
  xmin : ℚ
  xmax : ℚ
  ymin : ℚ
  ymax : ℚ
  canvasWidth : ℚ
  canvasHeight : ℚ
  penRadius : ℚ
  windowCreated : Bool
  keysTyped : List String
  mousePressed : Bool
  mousePos : Option (ℚ × ℚ)
  deriving DecidableEq

/-- Test for the `raise` outcome of a modelled Python function. -/
def isError {ε α : Type} : Except ε α → Bool
  | .error _ => true
  | .ok _ => false

/-- Propagate an exception Python-style: a `raise` leaves the module
globals exactly as they were. -/
def runOr (s : DrawState) : Except String DrawState → DrawState
  | .ok t => t
  | .error _ => s

/-- Embeds `_scale_x(x)`: `_canvasWidth * (x - _xmin) / (_xmax - _xmin)`. -/
def scale_x (s : DrawState) (x : ℚ) : ℚ :=
  s.canvasWidth * (x - s.xmin) / (s.xmax - s.xmin)

/-- Embeds `_scale_y(y)`: `_canvasHeight * (_ymax - y) / (_ymax - _ymin)`. -/
def scale_y (s : DrawState) (y : ℚ) : ℚ :=
  s.canvasHeight * (s.ymax - y) / (s.ymax - s.ymin)

/-- Embeds `_factor_x(w)`: `w * _canvasWidth / abs(_xmax - _xmin)`. -/
def factor_x (s : DrawState) (w : ℚ) : ℚ :=
  w * s.canvasWidth / |s.xmax - s.xmin|

/-- Embeds `_factor_y(h)`: `h * _canvasHeight / abs(_ymax - _ymin)`. -/
def factor_y (s : DrawState) (h : ℚ) : ℚ :=
  h * s.canvasHeight / |s.ymax - s.ymin|

/-- Embeds `_user_x(x)`: `_xmin + x * (_xmax - _xmin) / _canvasWidth`. -/
def user_x (s : DrawState) (x : ℚ) : ℚ :=
  s.xmin + x * (s.xmax - s.xmin) / s.canvasWidth

/-- Embeds `_user_y(y)`: `_ymax - y * (_ymax - _ymin) / _canvasHeight`. -/
def user_y (s : DrawState) (y : ℚ) : ℚ :=
  s.ymax - y * (s.ymax - s.ymin) / s.canvasHeight

/-- Embeds `set_canvas_size(w, h)`: raises if the window was already
created or if `w < 1` or `h < 1`; otherwise records the canvas size,
creates the window surface and sets the window-created flag. -/
def set_canvas_size (w h : ℚ) (s : DrawState) : Except String DrawState :=
  if s.windowCreated then
    .error "The stddraw window already was created"
  else if w < 1 ∨ h < 1 then
    .error "width and height must be positive"
  else
    .ok { s with canvasWidth := w, canvasHeight := h, windowCreated := true }

/-- Embeds `set_xscale(min, max)`: raises when `min >= max`, otherwise
stores `min - _BORDER * size` and `max + _BORDER * size` where
`size = max - min`. -/
def set_xscale (mn mx : ℚ) (s : DrawState) : Except String DrawState :=
  if mn ≥ mx then
    .error "min must be less than max"
  else
    .ok { s with xmin := mn - BORDER * (mx - mn), xmax := mx + BORDER * (mx - mn) }

/-- Embeds `set_yscale(min, max)`: raises when `min >= max`, otherwise
stores `min - _BORDER * size` and `max + _BORDER * size` where
`size = max - min`. -/
def set_yscale (mn mx : ℚ) (s : DrawState) : Except String DrawState :=
  if mn ≥ mx then
    .error "min must be less than max"
  else
    .ok { s with ymin := mn - BORDER * (mx - mn), ymax := mx + BORDER * (mx - mn) }

/-- Embeds `set_pen_radius(r)`: raises when `r < 0.0`, otherwise stores
`r * float(_DEFAULT_CANVAS_SIZE)`. -/
def set_pen_radius (r : ℚ) (s : DrawState) : Except String DrawState :=
  if r < 0 then
    .error "Argument to setPenRadius() must be non-neg"
  else
    .ok { s with penRadius := r * DEFAULT_CANVAS_SIZE }

/-- Embeds `_make_sure_window_created()`: when the window is not yet
created, calls `set_canvas_size()` with the default size and sets the
flag (the flag assignment in the source is redundant with the one inside
`set_canvas_size`). -/
def make_sure_window_created (s : DrawState) : DrawState :=
  if s.windowCreated then s
  else
    { runOr s (set_canvas_size DEFAULT_CANVAS_SIZE DEFAULT_CANVAS_SIZE s) with
        windowCreated := true }

/-- Embeds `mouseX()`: raises when no left click has been recorded
(`_mousePos` still `None`; a recorded pygame position is a 2-tuple, which
is always truthy), otherwise converts the stored pixel x to user space. -/
def mouseX (s : DrawState) : Except String ℚ :=
  match s.mousePos with
  | some p => .ok (user_x s p.1)
  | none => .error "mouse position unavailable: no click has happened"

/-- Embeds `mouseY()`: raises when no left click has been recorded,
otherwise converts the stored pixel y to user space. -/
def mouseY (s : DrawState) : Except String ℚ :=
  match s.mousePos with
  | some p => .ok (user_y s p.2)
  | none => .error "mouse position unavailable: no click has happened"

/-- Embeds `hasNextKeyTyped()`: `_keysTyped != []`. -/
def hasNextKeyTyped (s : DrawState) : Bool :=
  s.keysTyped ≠ []

/-- Embeds `nextKeyTyped()`: `_keysTyped.pop()` removes and returns the
LAST element of the list.  On an empty list Python raises an unguarded
`IndexError`; that failure is modelled as `none`. -/
def nextKeyTyped (s : DrawState) : Option (String × DrawState) :=
  match s.keysTyped.getLast? with
  | some k => some (k, { s with keysTyped := s.keysTyped.dropLast })
  | none => none

/-- Embeds the `KEYDOWN` branch of `_checkForEvents()`:
`_keysTyped = [event.unicode] + _keysTyped` prepends the new key. -/
def keyDownEvent (k : String) (s : DrawState) : DrawState :=
  { s with keysTyped := [k] ++ s.keysTyped }

/-- Embeds the left `MOUSEBUTTONDOWN` branch of `_checkForEvents()`:
record the press and the click position. -/
def mouseClickEvent (px py : ℚ) (s : DrawState) : DrawState :=
  { s with mousePressed := true, mousePos := some (px, py) }

/-- Embeds `mousePressed()`'s effect on the globals: the flag is cleared
when it was set. -/
def pollMousePressed (s : DrawState) : DrawState :=
  if s.mousePressed then { s with mousePressed := false } else s

/-- Python 3 `int(round(q))`: round half to even, as used when stddraw
hands pixel coordinates and border widths to pygame. -/
def pyRound (q : ℚ) : ℤ :=
  if q - ⌊q⌋ < 1 / 2 then ⌊q⌋
  else if 1 / 2 < q - ⌊q⌋ then ⌊q⌋ + 1
  else if ⌊q⌋ % 2 = 0 then ⌊q⌋ else ⌊q⌋ + 1

/-- The single toolkit call a drawing function delegates to:
`pygame.gfxdraw.pixel` (integer pixel coordinates), `pygame.draw.ellipse`
or `pygame.draw.rect` (a bounding `pygame.Rect` plus an integer border
width, `0` meaning filled). -/
inductive DrawCmd where
  | pixel (px py : ℤ)
  | ellipse (left top w h : ℚ) (border : ℤ)
  | rect (left top w h : ℚ) (border : ℤ)
  deriving DecidableEq

/-- Embeds `_pixel(x, y)`: ensure the window exists, then draw one pixel at
the rounded scaled coordinates. -/
def pixel (s : DrawState) (x y : ℚ) : DrawState × DrawCmd :=
  let s1 := make_sure_window_created s
  (s1, .pixel (pyRound (scale_x s1 x)) (pyRound (scale_y s1 y)))

/-- Embeds `point(x, y)`: a pixel when `_pen_radius <= 1.0`, otherwise a
filled ellipse of radius `_pen_radius` around the scaled point. -/
def point (s : DrawState) (x y : ℚ) : DrawState × DrawCmd :=
  let s1 := make_sure_window_created s
  if s1.penRadius ≤ 1 then
    pixel s1 x y
  else
    (s1, .ellipse (scale_x s1 x - s1.penRadius) (scale_y s1 y - s1.penRadius)
      (s1.penRadius * 2) (s1.penRadius * 2) 0)

/-- Embeds `circle(x, y, r)`: a pixel when the scaled diameter fits within
one pixel in both axes, otherwise an outlined ellipse. -/
def circle (s : DrawState) (x y r : ℚ) : DrawState × DrawCmd :=
  let s1 := make_sure_window_created s
  let ws := factor_x s1 (2 * r)
  let hs := factor_y s1 (2 * r)
  if ws ≤ 1 ∧ hs ≤ 1 then
    pixel s1 x y
  else
    (s1, .ellipse (scale_x s1 x - ws / 2) (scale_y s1 y - hs / 2) ws hs
      (pyRound s1.penRadius))

/-- Embeds `filledCircle(x, y, r)`: a pixel when the scaled diameter fits
within one pixel in both axes, otherwise a filled ellipse. -/
def filledCircle (s : DrawState) (x y r : ℚ) : DrawState × DrawCmd :=
  let s1 := make_sure_window_created s
  let ws := factor_x s1 (2 * r)
  let hs := factor_y s1 (2 * r)
  if ws ≤ 1 ∧ hs ≤ 1 then
    pixel s1 x y
  else
    (s1, .ellipse (scale_x s1 x - ws / 2) (scale_y s1 y - hs / 2) ws hs 0)

/-- Embeds `rectangle(x, y, w, h)`: a pixel when the scaled width and
height both fit within one pixel, otherwise an outlined rect. -/
def rectangle (s : DrawState) (x y w h : ℚ) : DrawState × DrawCmd :=
  let s1 := make_sure_window_created s
  let ws := factor_x s1 w
  let hs := factor_y s1 h
  if ws ≤ 1 ∧ hs ≤ 1 then
    pixel s1 x y
  else
    (s1, .rect (scale_x s1 x) (scale_y s1 y - hs) ws hs (pyRound s1.penRadius))

/-- Embeds `filledRectangle(x, y, w, h)`: a pixel when the scaled width and
height both fit within one pixel, otherwise a filled rect. -/
def filledRectangle (s : DrawState) (x y w h : ℚ) : DrawState × DrawCmd :=
  let s1 := make_sure_window_created s
  let ws := factor_x s1 w
  let hs := factor_y s1 h
  if ws ≤ 1 ∧ hs ≤ 1 then
    pixel s1 x y
  else
    (s1, .rect (scale_x s1 x) (scale_y s1 y - hs) ws hs 0)

/-- Embeds `_thick_line(x0, y0, x1, y1, r)` with explicit fuel: when the
scaled endpoints are within one pixel in both axes, draw one filled circle
(recorded as its `(x, y, r)` arguments); otherwise recurse on the two
halves of the segment.  `none` means the fuel ran out before the recursion
bottomed out. -/
def thickLineFuel (s : DrawState) :
    ℕ → ℚ → ℚ → ℚ → ℚ → ℚ → Option (List (ℚ × ℚ × ℚ))
  | 0, _, _, _, _, _ => none
  | n + 1, x0, y0, x1, y1, r =>
    if |scale_x s x0 - scale_x s x1| < 1 ∧ |scale_y s y0 - scale_y s y1| < 1 then
      some [(x0, y0, r)]
    else
      match thickLineFuel s n x0 y0 ((x0 + x1) / 2) ((y0 + y1) / 2) r,
            thickLineFuel s n ((x0 + x1) / 2) ((y0 + y1) / 2) x1 y1 r with
      | some l, some l2 => some (l ++ l2)
      | _, _ => none

/-- One public operation of the module, acting on the globals.  Drawing
functions touch the globals only through `_make_sure_window_created`, so a
single `draw` constructor covers them all; `keyDown` and `mouseClick` are
the event-handler branches of `_checkForEvents`. -/
inductive Op where
  | setXscale (mn mx : ℚ)
  | setYscale (mn mx : ℚ)
  | setPenRadius (r : ℚ)
  | setCanvasSize (w h : ℚ)
  | draw
  | keyDown (k : String)
  | mouseClick (px py : ℚ)
  | pollMouse
  | popKey

/-- Applies one public operation; an operation that raises leaves the
globals unchanged, exactly as the Python assignments placed after the
`raise` statements do. -/
def applyOp (op : Op) (s : DrawState) : DrawState :=
  match op with
  | .setXscale mn mx => runOr s (set_xscale mn mx s)
  | .setYscale mn mx => runOr s (set_yscale mn mx s)
  | .setPenRadius r => runOr s (set_pen_radius r s)
  | .setCanvasSize w h => runOr s (set_canvas_size w h s)
  | .draw => make_sure_window_created s
  | .keyDown k => keyDownEvent k s
  | .mouseClick px py => mouseClickEvent px py s
  | .pollMouse => pollMousePressed s
  | .popKey =>
    match nextKeyTyped s with
    | some (_, t) => t
    | none => s

/-- The globals before module initialization runs.  The scale bounds and
pen radius stand in for Python's `None`; initialization overwrites them
before any client code can observe them. -/
def baseState : DrawState where
  xmin := 0
  xmax := 0
  ymin := 0
  ymax := 0
  canvasWidth := DEFAULT_CANVAS_SIZE
  canvasHeight := DEFAULT_CANVAS_SIZE
  penRadius := 0
  windowCreated := false
  keysTyped := []
  mousePressed := false
  mousePos := none

/-- The globals after module initialization:
`set_xscale(); set_yscale(); set_pen_radius()` with their defaults. -/
def initState : DrawState :=
  applyOp (.setPenRadius DEFAULT_PEN_RADIUS)
    (applyOp (.setYscale DEFAULT_YMIN DEFAULT_YMAX)
      (applyOp (.setXscale DEFAULT_XMIN DEFAULT_XMAX) baseState))

/-- States reachable through the public operations after initialization. -/
inductive Reachable : DrawState → Prop where
  | init : Reachable initState
  | step (s : DrawState) (op : Op) : Reachable s → Reachable (applyOp op s)

/-- The range invariants of the spec: valid scale bounds and a
non-negative pen radius. -/
def Inv (s : DrawState) : Prop :=
  s.xmin < s.xmax ∧ s.ymin < s.ymax ∧ 0 ≤ s.penRadius

instance (s : DrawState) : Decidable (Inv s) := by
  unfold Inv; infer_instance

/-- Repeatedly calling `nextKeyTyped` drains the whole key queue; the
recursion consumes one key per step. -/
def drainKeys (s : DrawState) : List String :=
  match h : nextKeyTyped s with
  | none => []
  | some (k, t) => k :: drainKeys t
termination_by s.keysTyped.length
decreasing_by
  unfold nextKeyTyped at h
  rcases hq : s.keysTyped.getLast? with _ | k2
  · rw [hq] at h; exact absurd h (by simp)
  · rw [hq] at h
    simp only [Option.some.injEq, Prod.mk.injEq] at h
    have hne : s.keysTyped ≠ [] := by
      intro hnil; rw [hnil] at hq; exact absurd hq (by simp)
    have : t.keysTyped = s.keysTyped.dropLast := by rw [← h.2]
    rw [this, List.length_dropLast]
    exact Nat.sub_lt (List.length_pos.mpr hne) Nat.one_pos

/-- Typing a sequence of keys in order, through the `KEYDOWN` handler. -/
def typeKeys (ks : List String) (s : DrawState) : DrawState :=
  ks.foldl (fun t k => keyDownEvent k t) s

/-- A concrete state used to instantiate the theorems: default 0..1 scale
on a 512x512 created window, pen radius 0, one recorded click at the
canvas centre. -/
def demoState : DrawState where
  xmin := 0
  xmax := 1
  ymin := 0
  ymax := 1
  canvasWidth := 512
  canvasHeight := 512
  penRadius := 0
  windowCreated := true
  keysTyped := []
  mousePressed := false
  mousePos := some (256, 256)

/-! ## Helper lemmas -/

/-- Halving the segment halves the scaled x-distance exactly: `_scale_x`
is affine in its argument. -/
theorem scale_x_halve (s : DrawState) (a b : ℚ) :
    scale_x s a - scale_x s ((a + b) / 2) = (scale_x s a - scale_x s b) / 2 := by
  unfold scale_x; ring

/-- Halving the segment halves the scaled x-distance of the second half. -/
theorem scale_x_halve_right (s : DrawState) (a b : ℚ) :
    scale_x s ((a + b) / 2) - scale_x s b = (scale_x s a - scale_x s b) / 2 := by
  unfold scale_x; ring

/-- Halving the segment halves the scaled y-distance exactly. -/
theorem scale_y_halve (s : DrawState) (a b : ℚ) :
    scale_y s a - scale_y s ((a + b) / 2) = (scale_y s a - scale_y s b) / 2 := by
  unfold scale_y; ring

/-- Halving the segment halves the scaled y-distance of the second half. -/
theorem scale_y_halve_right (s : DrawState) (a b : ℚ) :
    scale_y s ((a + b) / 2) - scale_y s b = (scale_y s a - scale_y s b) / 2 := by
  unfold scale_y; ring

/-- Fuel `N + 1` suffices for `_thick_line` whenever the scaled distances
between the endpoints are below `2 ^ N` in both axes. -/
theorem thickLineFuel_isSome (s : DrawState) :
    ∀ (N : ℕ) (x0 y0 x1 y1 r : ℚ),
      |scale_x s x0 - scale_x s x1| < 2 ^ N →
      |scale_y s y0 - scale_y s y1| < 2 ^ N →
      (thickLineFuel s (N + 1) x0 y0 x1 y1 r).isSome := by
  intro N
  induction N with
  | zero =>
    intro x0 y0 x1 y1 r hx hy
    unfold thickLineFuel
    rw [if_pos ⟨by simpa using hx, by simpa using hy⟩]
    rfl
  | succ N ih =>
    intro x0 y0 x1 y1 r hx hy
    unfold thickLineFuel
    by_cases hc : |scale_x s x0 - scale_x s x1| < 1 ∧ |scale_y s y0 - scale_y s y1| < 1
    · rw [if_pos hc]; rfl
    · rw [if_neg hc]
      have hhalf : ∀ d : ℚ, d < 2 ^ (N + 1) → d / 2 < 2 ^ N := by
        intro d hd
        rw [div_lt_iff (by norm_num : (0:ℚ) < 2)]
        calc d < 2 ^ (N + 1) := hd
        _ = 2 ^ N * 2 := by ring
      have hx1 : |scale_x s x0 - scale_x s ((x0 + x1) / 2)| < 2 ^ N := by
        rw [scale_x_halve, abs_div, abs_two]
        exact hhalf _ hx
      have hy1 : |scale_y s y0 - scale_y s ((y0 + y1) / 2)| < 2 ^ N := by
        rw [scale_y_halve, abs_div, abs_two]
        exact hhalf _ hy
      have hx2 : |scale_x s ((x0 + x1) / 2) - scale_x s x1| < 2 ^ N := by
        rw [scale_x_halve_right, abs_div, abs_two]
        exact hhalf _ hx
      have hy2 : |scale_y s ((y0 + y1) / 2) - scale_y s y1| < 2 ^ N := by
        rw [scale_y_halve_right, abs_div, abs_two]
        exact hhalf _ hy
      obtain ⟨l1, hl1⟩ := Option.isSome_iff_exists.mp (ih x0 y0 _ _ r hx1 hy1)
      obtain ⟨l2, hl2⟩ := Option.isSome_iff_exists.mp (ih _ _ x1 y1 r hx2 hy2)
      rw [hl1, hl2]
      rfl

/-- Every public operation preserves the range invariants. -/
theorem inv_applyOp (op : Op) (s : DrawState) (h : Inv s) : Inv (applyOp op s) := by
  obtain ⟨h1, h2, h3⟩ := h
  cases op with
  | setXscale mn mx =>
    show Inv (runOr s (set_xscale mn mx s))
    unfold set_xscale
    split
    · exact ⟨h1, h2, h3⟩
    · next hlt =>
      refine ⟨?_, h2, h3⟩
      show mn - BORDER * (mx - mn) < mx + BORDER * (mx - mn)
      simp only [BORDER, zero_mul, sub_zero, add_zero]
      exact lt_of_not_ge hlt
  | setYscale mn mx =>
    show Inv (runOr s (set_yscale mn mx s))
    unfold set_yscale
    split
    · exact ⟨h1, h2, h3⟩
    · next hlt =>
      refine ⟨h1, ?_, h3⟩
      show mn - BORDER * (mx - mn) < mx + BORDER * (mx - mn)
      simp only [BORDER, zero_mul, sub_zero, add_zero]
      exact lt_of_not_ge hlt
  | setPenRadius r =>
    show Inv (runOr s (set_pen_radius r s))
    unfold set_pen_radius
    split
    · exact ⟨h1, h2, h3⟩
    · next hge =>
      exact ⟨h1, h2, mul_nonneg (not_lt.mp hge) (by norm_num [DEFAULT_CANVAS_SIZE])⟩
  | setCanvasSize w hh =>
    show Inv (runOr s (set_canvas_size w hh s))
    unfold set_canvas_size
    split
    · exact ⟨h1, h2, h3⟩
    · split
      · exact ⟨h1, h2, h3⟩
      · exact ⟨h1, h2, h3⟩
  | draw =>
    show Inv (make_sure_window_created s)
    unfold make_sure_window_created
    split
    · exact ⟨h1, h2, h3⟩
    · have hi : Inv (runOr s (set_canvas_size DEFAULT_CANVAS_SIZE DEFAULT_CANVAS_SIZE s)) := by
        unfold set_canvas_size
        split
        · exact ⟨h1, h2, h3⟩
        · split
          · exact ⟨h1, h2, h3⟩
          · exact ⟨h1, h2, h3⟩
      exact ⟨hi.1, hi.2.1, hi.2.2⟩
  | keyDown k => exact ⟨h1, h2, h3⟩
  | mouseClick px py => exact ⟨h1, h2, h3⟩
  | pollMouse =>
    show Inv (pollMousePressed s)
    unfold pollMousePressed
    split
    · exact ⟨h1, h2, h3⟩
    · exact ⟨h1, h2, h3⟩
  | popKey =>
    show Inv (match nextKeyTyped s with | some (_, t) => t | none => s)
    unfold nextKeyTyped
    cases hq : s.keysTyped.getLast? <;> exact ⟨h1, h2, h3⟩

/-- Module initialization establishes the range invariants. -/
theorem inv_init : Inv initState := by
  unfold initState baseState
  norm_num [Inv, applyOp, set_xscale, set_yscale, set_pen_radius, runOr,
    BORDER, DEFAULT_XMIN, DEFAULT_XMAX, DEFAULT_YMIN, DEFAULT_YMAX,
    DEFAULT_PEN_RADIUS, DEFAULT_CANVAS_SIZE]

/-- Draining the key queue lists it back to front. -/
theorem drainKeys_eq :
    ∀ (q : List String) (s : DrawState), s.keysTyped = q →
      drainKeys s = q.reverse := by
  intro q
  induction q using List.reverseRecOn with
  | nil =>
    intro s hs
    rw [drainKeys.eq_def]
    split
    · simp
    · next k t heq => simp [nextKeyTyped, hs] at heq
  | append_singleton l a ih =>
    intro s hs
    rw [drainKeys.eq_def]
    split
    · next heq => simp [nextKeyTyped, hs] at heq
    · next k t heq =>
      unfold nextKeyTyped at heq
      rw [hs] at heq
      simp only [List.getLast?_concat, List.dropLast_concat,
        Option.some.injEq, Prod.mk.injEq] at heq
      have hk : a = k := heq.1
      have ht : t.keysTyped = l := by rw [← heq.2]
      rw [ih t ht, ← hk, List.reverse_append]
      simp

/-- The key queue after typing a sequence of keys. -/
theorem typeKeys_keysTyped :
    ∀ (ks : List String) (s : DrawState),
      (typeKeys ks s).keysTyped = ks.reverse ++ s.keysTyped := by
  intro ks
  induction ks with
  | nil => intro s; simp [typeKeys]
  | cons k ks ih =>
    intro s
    show (typeKeys ks (keyDownEvent k s)).keysTyped = _
    rw [ih]
    simp [keyDownEvent]

/-! ## Claim theorems -/

/-- C1: `set_xscale` (and likewise `set_yscale`) raises exactly when
`min >= max`; a raise leaves the stored bounds (indeed the whole state)
unchanged, and success stores exactly `min` and `max` since the border
constant is `0.0`. -/
theorem set_scale_spec (s : DrawState) (mn mx : ℚ) :
    (isError (set_xscale mn mx s) = true ↔ mx ≤ mn) ∧
    (mx ≤ mn → applyOp (.setXscale mn mx) s = s) ∧
    (mn < mx → set_xscale mn mx s = .ok { s with xmin := mn, xmax := mx }) ∧
    (isError (set_yscale mn mx s) = true ↔ mx ≤ mn) ∧
    (mx ≤ mn → applyOp (.setYscale mn mx) s = s) ∧
    (mn < mx → set_yscale mn mx s = .ok { s with ymin := mn, ymax := mx }) := by
  refine ⟨?_, ?_, ?_, ?_, ?_, ?_⟩
  · unfold set_xscale
    split <;> simp_all [isError, ge_iff_le]
  · intro h
    show runOr s (set_xscale mn mx s) = s
    simp [set_xscale, ge_iff_le, h, runOr]
  · intro h
    unfold set_xscale
    rw [if_neg (not_le.mpr h)]
    simp [BORDER]
  · unfold set_yscale
    split <;> simp_all [isError, ge_iff_le]
  · intro h
    show runOr s (set_yscale mn mx s) = s
    simp [set_yscale, ge_iff_le, h, runOr]
  · intro h
    unfold set_yscale
    rw [if_neg (not_le.mpr h)]
    simp [BORDER]

/-- C1 witness at concrete inputs. -/
theorem set_scale_spec_witness :
    applyOp (.setXscale 3 1) demoState = demoState ∧
    set_xscale 0 1 demoState = .ok { demoState with xmin := 0, xmax := 1 } ∧
    applyOp (.setYscale 3 1) demoState = demoState ∧
    set_yscale 0 1 demoState = .ok { demoState with ymin := 0, ymax := 1 } :=
  ⟨(set_scale_spec demoState 3 1).2.1 (by norm_num),
   (set_scale_spec demoState 0 1).2.2.1 (by norm_num),
   (set_scale_spec demoState 3 1).2.2.2.2.1 (by norm_num),
   (set_scale_spec demoState 0 1).2.2.2.2.2 (by norm_num)⟩

/-- C2: with valid x-scale bounds and a positive canvas width the pixel
and user-space mappings are mutual inverses on x, and symmetrically on y,
in exact rational arithmetic. -/
theorem scale_user_inverse (s : DrawState) (x y : ℚ)
    (hx : s.xmin < s.xmax) (hw : 0 < s.canvasWidth)
    (hy : s.ymin < s.ymax) (hh : 0 < s.canvasHeight) :
    user_x s (scale_x s x) = x ∧ user_y s (scale_y s y) = y := by
  have hx0 : s.xmax - s.xmin ≠ 0 := sub_ne_zero.mpr (ne_of_gt hx)
  have hy0 : s.ymax - s.ymin ≠ 0 := sub_ne_zero.mpr (ne_of_gt hy)
  have hw0 : s.canvasWidth ≠ 0 := ne_of_gt hw
  have hh0 : s.canvasHeight ≠ 0 := ne_of_gt hh
  constructor
  · unfold user_x scale_x
    field_simp
  · unfold user_y scale_y
    field_simp

/-- C2 witness at concrete inputs. -/
theorem scale_user_inverse_witness :
    user_x demoState (scale_x demoState (1 / 3)) = 1 / 3 ∧
    user_y demoState (scale_y demoState (1 / 4)) = 1 / 4 :=
  scale_user_inverse demoState (1 / 3) (1 / 4)
    (by norm_num [demoState]) (by norm_num [demoState])
    (by norm_num [demoState]) (by norm_num [demoState])

/-- C3: `set_pen_radius(r)` raises exactly when `r < 0.0`, and a raise
leaves the stored pen radius (indeed the whole state) unchanged. -/
theorem set_pen_radius_spec (s : DrawState) (r : ℚ) :
    (isError (set_pen_radius r s) = true ↔ r < 0) ∧
    (r < 0 → applyOp (.setPenRadius r) s = s) := by
  constructor
  · unfold set_pen_radius
    split <;> simp_all [isError]
  · intro h
    show runOr s (set_pen_radius r s) = s
    simp [set_pen_radius, h, runOr]

/-- C3 witness at concrete inputs. -/
theorem set_pen_radius_spec_witness :
    (isError (set_pen_radius (-1) demoState) = true ↔ (-1 : ℚ) < 0) ∧
    applyOp (.setPenRadius (-1)) demoState = demoState :=
  ⟨(set_pen_radius_spec demoState (-1)).1,
   (set_pen_radius_spec demoState (-1)).2 (by norm_num)⟩

/-- C4: `set_canvas_size` raises whenever the window was already created
and whenever `w < 1` or `h < 1`; on success it records the canvas size and
sets the window-created flag, and no public operation ever resets that
flag. -/
theorem set_canvas_size_spec (s : DrawState) (w h : ℚ) :
    (s.windowCreated = true → isError (set_canvas_size w h s) = true) ∧
    (w < 1 ∨ h < 1 → isError (set_canvas_size w h s) = true) ∧
    (s.windowCreated = false → 1 ≤ w → 1 ≤ h →
      set_canvas_size w h s =
        .ok { s with canvasWidth := w, canvasHeight := h, windowCreated := true }) ∧
    (∀ op, s.windowCreated = true → (applyOp op s).windowCreated = true) := by
  refine ⟨?_, ?_, ?_, ?_⟩
  · intro hw
    simp [set_canvas_size, hw, isError]
  · intro hwh
    unfold set_canvas_size
    by_cases hc : s.windowCreated = true
    · simp [hc, isError]
    · simp [hc, hwh, isError]
  · intro h0 h1 h2
    simp [set_canvas_size, h0, not_lt.mpr h1, not_lt.mpr h2]
  · intro op hcreated
    cases op with
    | setXscale mn mx =>
      show (runOr s (set_xscale mn mx s)).windowCreated = true
      unfold set_xscale
      split <;> simp [runOr, hcreated]
    | setYscale mn mx =>
      show (runOr s (set_yscale mn mx s)).windowCreated = true
      unfold set_yscale
      split <;> simp [runOr, hcreated]
    | setPenRadius r =>
      show (runOr s (set_pen_radius r s)).windowCreated = true
      unfold set_pen_radius
      split <;> simp [runOr, hcreated]
    | setCanvasSize w2 h2 =>
      show (runOr s (set_canvas_size w2 h2 s)).windowCreated = true
      simp [set_canvas_size, hcreated, runOr]
    | draw =>
      show (make_sure_window_created s).windowCreated = true
      simp [make_sure_window_created, hcreated]
    | keyDown k => exact hcreated
    | mouseClick px py => exact hcreated
    | pollMouse =>
      show (pollMousePressed s).windowCreated = true
      unfold pollMousePressed
      split <;> simp [hcreated]
    | popKey =>
      show (match nextKeyTyped s with | some (_, t) => t | none => s).windowCreated = true
      unfold nextKeyTyped
      cases hq : s.keysTyped.getLast? <;> exact hcreated

/-- C4 witness at concrete inputs. -/
theorem set_canvas_size_spec_witness :
    isError (set_canvas_size 300 200 demoState) = true ∧
    isError (set_canvas_size 0 200 baseState) = true ∧
    set_canvas_size 300 200 baseState =
      .ok { baseState with canvasWidth := 300, canvasHeight := 200, windowCreated := true } ∧
    (applyOp .draw demoState).windowCreated = true :=
  ⟨(set_canvas_size_spec demoState 300 200).1 rfl,
   (set_canvas_size_spec baseState 0 200).2.1 (Or.inl (by norm_num)),
   (set_canvas_size_spec baseState 300 200).2.2.1 rfl (by norm_num) (by norm_num),
   (set_canvas_size_spec demoState 300 200).2.2.2 .draw rfl⟩

/-- C5: `mouseX()` and `mouseY()` raise exactly when no left click has
been recorded yet (`_mousePos` still `None`); otherwise they return the
user-space coordinates of the recorded click position.  Both are pure
reads: they assign no module global, which the embedding reflects by
typing them as functions of the state alone. -/
theorem mouse_query_spec (s : DrawState) :
    (isError (mouseX s) = true ↔ s.mousePos = none) ∧
    (isError (mouseY s) = true ↔ s.mousePos = none) ∧
    (∀ p, s.mousePos = some p →
      mouseX s = .ok (user_x s p.1) ∧ mouseY s = .ok (user_y s p.2)) := by
  refine ⟨?_, ?_, ?_⟩
  · cases hp : s.mousePos <;> simp [mouseX, isError, hp]
  · cases hp : s.mousePos <;> simp [mouseY, isError, hp]
  · intro p hp
    constructor <;> simp [mouseX, mouseY, hp]

/-- C5 witness at concrete inputs. -/
theorem mouse_query_spec_witness :
    mouseX demoState = .ok (user_x demoState 256) ∧
    mouseY demoState = .ok (user_y demoState 256) :=
  ⟨((mouse_query_spec demoState).2.2 (256, 256) rfl).1,
   ((mouse_query_spec demoState).2.2 (256, 256) rfl).2⟩

/-- C6: every state reachable through the public operations after module
initialization satisfies `_xmin < _xmax`, `_ymin < _ymax` and
`_pen_radius >= 0`, and every public operation preserves these
invariants. -/
theorem range_invariants :
    (∀ s, Reachable s → Inv s) ∧ (∀ op s, Inv s → Inv (applyOp op s)) := by
  refine ⟨?_, fun op s h => inv_applyOp op s h⟩
  intro s hs
  induction hs with
  | init => exact inv_init
  | step t op ht ih => exact inv_applyOp op t ih

/-- C6 witness: the initial state is reachable and satisfies the
invariants. -/
theorem range_invariants_witness : Reachable initState ∧ Inv initState :=
  ⟨Reachable.init, range_invariants.1 initState Reachable.init⟩

/-- C7: with valid scale bounds and positive canvas dimensions the
recursive `_thick_line` terminates: each recursive call halves the scaled
distance between the endpoints exactly, so some finite fuel makes the
recursion bottom out in `filledCircle` calls. -/
theorem thick_line_terminates (s : DrawState) (x0 y0 x1 y1 r : ℚ)
    (_hx : s.xmin < s.xmax) (_hy : s.ymin < s.ymax)
    (_hw : 0 < s.canvasWidth) (_hh : 0 < s.canvasHeight) :
    (∀ a b : ℚ,
      |scale_x s a - scale_x s ((a + b) / 2)| = |scale_x s a - scale_x s b| / 2 ∧
      |scale_y s a - scale_y s ((a + b) / 2)| = |scale_y s a - scale_y s b| / 2) ∧
    ∃ n, (thickLineFuel s n x0 y0 x1 y1 r).isSome := by
  constructor
  · intro a b
    constructor
    · rw [scale_x_halve, abs_div, abs_two]
    · rw [scale_y_halve, abs_div, abs_two]
  · obtain ⟨m, hm⟩ :=
      exists_nat_gt (max |scale_x s x0 - scale_x s x1| |scale_y s y0 - scale_y s y1|)
    have h2 : (m : ℚ) < 2 ^ m := by exact_mod_cast Nat.lt_two_pow m
    refine ⟨m + 1, thickLineFuel_isSome s m x0 y0 x1 y1 r ?_ ?_⟩
    · exact lt_trans (lt_of_le_of_lt (le_max_left _ _) hm) h2
    · exact lt_trans (lt_of_le_of_lt (le_max_right _ _) hm) h2

/-- C7 witness at concrete inputs. -/
theorem thick_line_terminates_witness :
    ∃ n, (thickLineFuel demoState n 0 0 1 1 (1 / 100)).isSome :=
  (thick_line_terminates demoState 0 0 1 1 (1 / 100)
    (by norm_num [demoState]) (by norm_num [demoState])
    (by norm_num [demoState]) (by norm_num [demoState])).2

/-- C8: `circle`, `filledCircle`, `rectangle` and `filledRectangle` draw a
single pixel at the shape's anchor point via `_pixel`, instead of
delegating an ellipse or rect call to the toolkit, whenever the scaled
width and height are both at most `1.0`; `point` does so whenever the
stored pen radius is at most `1.0`. -/
theorem small_shape_pixel (s : DrawState) (x y r w h : ℚ) :
    (factor_x (make_sure_window_created s) (2 * r) ≤ 1 →
     factor_y (make_sure_window_created s) (2 * r) ≤ 1 →
       circle s x y r = pixel (make_sure_window_created s) x y ∧
       filledCircle s x y r = pixel (make_sure_window_created s) x y) ∧
    (factor_x (make_sure_window_created s) w ≤ 1 →
     factor_y (make_sure_window_created s) h ≤ 1 →
       rectangle s x y w h = pixel (make_sure_window_created s) x y ∧
       filledRectangle s x y w h = pixel (make_sure_window_created s) x y) ∧
    ((make_sure_window_created s).penRadius ≤ 1 →
       point s x y = pixel (make_sure_window_created s) x y) := by
  refine ⟨fun h1 h2 => ⟨?_, ?_⟩, fun h1 h2 => ⟨?_, ?_⟩, fun h1 => ?_⟩
  · simp only [circle]
    rw [if_pos ⟨h1, h2⟩]
  · simp only [filledCircle]
    rw [if_pos ⟨h1, h2⟩]
  · simp only [rectangle]
    rw [if_pos ⟨h1, h2⟩]
  · simp only [filledRectangle]
    rw [if_pos ⟨h1, h2⟩]
  · simp only [point]
    rw [if_pos h1]

/-- C8 witness at concrete inputs. -/
theorem small_shape_pixel_witness :
    circle demoState (1/2) (1/2) (1/2048) =
      pixel (make_sure_window_created demoState) (1/2) (1/2) ∧
    filledCircle demoState (1/2) (1/2) (1/2048) =
      pixel (make_sure_window_created demoState) (1/2) (1/2) ∧
    rectangle demoState (1/2) (1/2) (1/1024) (1/1024) =
      pixel (make_sure_window_created demoState) (1/2) (1/2) ∧
    filledRectangle demoState (1/2) (1/2) (1/1024) (1/1024) =
      pixel (make_sure_window_created demoState) (1/2) (1/2) ∧
    point demoState (1/2) (1/2) =
      pixel (make_sure_window_created demoState) (1/2) (1/2) :=
  ⟨((small_shape_pixel demoState (1/2) (1/2) (1/2048) (1/1024) (1/1024)).1
      (by norm_num [factor_x, make_sure_window_created, demoState])
      (by norm_num [factor_y, make_sure_window_created, demoState])).1,
   ((small_shape_pixel demoState (1/2) (1/2) (1/2048) (1/1024) (1/1024)).1
      (by norm_num [factor_x, make_sure_window_created, demoState])
      (by norm_num [factor_y, make_sure_window_created, demoState])).2,
   ((small_shape_pixel demoState (1/2) (1/2) (1/2048) (1/1024) (1/1024)).2.1
      (by norm_num [factor_x, make_sure_window_created, demoState])
      (by norm_num [factor_y, make_sure_window_created, demoState])).1,
   ((small_shape_pixel demoState (1/2) (1/2) (1/2048) (1/1024) (1/1024)).2.1
      (by norm_num [factor_x, make_sure_window_created, demoState])
      (by norm_num [factor_y, make_sure_window_created, demoState])).2,
   (small_shape_pixel demoState (1/2) (1/2) (1/2048) (1/1024) (1/1024)).2.2
      (by norm_num [make_sure_window_created, demoState])⟩

/-- C9: for `r >= 0`, `set_pen_radius(r)` stores the pixel pen radius
`r * 512` (the default canvas size constant), whatever the state's actual
canvas width and height are, so the pen thickness in pixels does not scale
with the canvas. -/
theorem pen_radius_absolute (s : DrawState) (r : ℚ) (hr : 0 ≤ r) :
    set_pen_radius r s = .ok { s with penRadius := r * 512 } ∧
    ∀ u, set_pen_radius r s = .ok u → u.penRadius = r * 512 := by
  have hmain : set_pen_radius r s = .ok { s with penRadius := r * 512 } := by
    unfold set_pen_radius DEFAULT_CANVAS_SIZE
    rw [if_neg (not_lt.mpr hr)]
  refine ⟨hmain, ?_⟩
  intro u hu
  rw [hmain] at hu
  simp only [Except.ok.injEq] at hu
  rw [← hu]

/-- C9 witness at concrete inputs (a non-default 300x200 canvas). -/
theorem pen_radius_absolute_witness :
    set_pen_radius (1/100)
        { demoState with canvasWidth := 300, canvasHeight := 200 } =
      .ok { demoState with canvasWidth := 300, canvasHeight := 200, penRadius := 1/100 * 512 } :=
  (pen_radius_absolute
    { demoState with canvasWidth := 300, canvasHeight := 200 }
    (1/100) (by norm_num)).1

/-- C10: keys are prepended to the front of the queue as they arrive and
`nextKeyTyped` pops from the back, so draining the queue returns the keys
in the order they were typed (FIFO); `hasNextKeyTyped` is true exactly on a
non-empty queue; and `nextKeyTyped` on an empty queue fails (the unguarded
`IndexError` of `list.pop`, modelled as `none`) rather than raising a
checked exception. -/
theorem key_queue_fifo :
    (∀ (s : DrawState) (ks : List String), s.keysTyped = [] →
      drainKeys (typeKeys ks s) = ks) ∧
    (∀ s : DrawState, hasNextKeyTyped s = true ↔ s.keysTyped ≠ []) ∧
    (∀ s : DrawState, s.keysTyped = [] → nextKeyTyped s = none) := by
  refine ⟨?_, ?_, ?_⟩
  · intro s ks hs
    rw [drainKeys_eq ((typeKeys ks s).keysTyped) _ rfl, typeKeys_keysTyped, hs]
    simp
  · intro s
    simp [hasNextKeyTyped]
  · intro s hs
    simp [nextKeyTyped, hs]

/-- C10 witness at concrete inputs. -/
theorem key_queue_fifo_witness :
    drainKeys (typeKeys ["a", "b", "c"] demoState) = ["a", "b", "c"] ∧
    (hasNextKeyTyped demoState = true ↔ demoState.keysTyped ≠ []) ∧
    nextKeyTyped demoState = none :=
  ⟨key_queue_fifo.1 demoState ["a", "b", "c"] rfl,
   key_queue_fifo.2.1 demoState,
   key_queue_fifo.2.2 demoState rfl⟩

end StdDraw
